import Mathlib

/-!
# Verification of the `lu_packets` world-message codecs

A shallow embedding of the hand-written wire codecs in
`src/world/server/mod.rs` and `src/world/client/mod.rs`.

Byte streams are modelled as `List Nat` (each entry one byte); the reader is
an in-memory byte sequence, so a single `std::io::Read::read` call yields all
remaining bytes up to the requested amount.  Machine integers are `Nat` with
explicit `% 2^w` where the source truncates.  Fallible decoding returns
`Except Err (value × remaining bytes)`.

Types from `crate::common` (`LuWStr33`, `LuWStr42`, `LuWString33`,
`ServiceId`, the `err` helper) and the derive-macro generated codecs are not
part of the two source files; they are modelled from the spec where needed,
each such definition marked `Modelled from the spec:` in its doc comment.
-/

namespace LuPackets

/-- Decode-error taxonomy of the spec (§7).  `panicked` stands for a Rust
arithmetic overflow/underflow panic (or the out-of-bounds access it guards in
release builds), which is a failure mode outside the spec's taxonomy. -/
inductive Err where
  | truncatedInput
  | unknownDiscriminant
  | lengthInconsistency
  | malformedText
  | panicked
deriving DecidableEq, Repr

/-- Read one byte (endio `u8`); insufficient bytes is a truncation error. -/
def readU8 : List Nat → Except Err (Nat × List Nat)
  | [] => .error .truncatedInput
  | b :: rest => .ok (b, rest)

/-- Read a little-endian `u16`. -/
def readU16 : List Nat → Except Err (Nat × List Nat)
  | b0 :: b1 :: rest => .ok (b0 + 256 * b1, rest)
  | _ => .error .truncatedInput

/-- Read a little-endian `u32`. -/
def readU32 : List Nat → Except Err (Nat × List Nat)
  | b0 :: b1 :: b2 :: b3 :: rest =>
      .ok (b0 + 256 * b1 + 65536 * b2 + 16777216 * b3, rest)
  | _ => .error .truncatedInput

/-- Little-endian bytes of a `u16` (value taken mod 2^16). -/
def toLE2 (v : Nat) : List Nat := [v % 256, v / 256 % 256]

/-- Little-endian bytes of a `u32` (value taken mod 2^32). -/
def toLE4 (v : Nat) : List Nat :=
  [v % 256, v / 256 % 256, v / 65536 % 256, v / 16777216 % 256]

/-- Little-endian bytes of a `u64` (value taken mod 2^64). -/
def toLE8 (v : Nat) : List Nat :=
  [v % 256, v / 256 % 256, v / 65536 % 256, v / 16777216 % 256,
   v / 4294967296 % 256, v / 1099511627776 % 256,
   v / 281474976710656 % 256, v / 72057594037927936 % 256]

/-- A Rust `bool` on the wire: one byte, 0 or 1. -/
def boolByte (b : Bool) : Nat := if b then 1 else 0

/-- 16-bit code units to little-endian bytes (low byte first). -/
def unitsToBytes : List Nat → List Nat
  | [] => []
  | u :: r => u % 256 :: u / 256 % 256 :: unitsToBytes r

/-- Little-endian byte pairs to 16-bit code units. -/
def bytesToUnits : List Nat → List Nat
  | b0 :: b1 :: r => (b0 + 256 * b1) :: bytesToUnits r
  | _ => []

/-- A Unicode scalar value as stored in a Rust `String`: in range and not a
surrogate. -/
def ValidScalar (v : Nat) : Prop :=
  v < 1114112 ∧ ¬(55296 ≤ v ∧ v < 57344)

instance (v : Nat) : Decidable (ValidScalar v) := by
  unfold ValidScalar; infer_instance

/-- Rust `str::encode_utf16`: scalars below 2^16 become one code unit, the
rest a surrogate pair. -/
def encodeUtf16 : List Nat → List Nat
  | [] => []
  | v :: rest =>
    if v < 65536 then v :: encodeUtf16 rest
    else (55296 + (v - 65536) / 1024) :: (56320 + (v - 65536) % 1024) ::
      encodeUtf16 rest

/-- Rust `String::from_utf16_lossy` on a list of 16-bit code units: well
formed pairs are combined, every ill-formed unit becomes U+FFFD. -/
def decodeUtf16Lossy : List Nat → List Nat
  | [] => []
  | [u] => if u < 55296 ∨ 57344 ≤ u then [u] else [65533]
  | u :: lo :: rest =>
    if u < 55296 ∨ 57344 ≤ u then u :: decodeUtf16Lossy (lo :: rest)
    else if u < 56320 then
      if 56320 ≤ lo ∧ lo < 57344 then
        (65536 + (u - 55296) * 1024 + (lo - 56320)) :: decodeUtf16Lossy rest
      else 65533 :: decodeUtf16Lossy (lo :: rest)
    else 65533 :: decodeUtf16Lossy (lo :: rest)

/-- Modelled from the spec: the fixed-capacity wide strings of
`crate::common` (`LuWStr33`, `LuWStr42`, `LuWString33`, not under `src/`).
§4.2: a constant-size region of `cap` 16-bit code units, content zero-padded
to capacity on encode (the capacity slot includes the terminator). -/
def wstrEncode (cap : Nat) (s : List Nat) : List Nat :=
  unitsToBytes (s ++ List.replicate (cap - s.length) 0)

/-- Modelled from the spec: decoding a fixed-capacity wide string (§4.1,
§4.2) reads exactly `2*cap` bytes (truncation error if fewer remain) and the
decoded content is the code units up to the first NUL terminator. -/
def wstrDecode (cap : Nat) (input : List Nat) :
    Except Err (List Nat × List Nat) :=
  if input.length < 2 * cap then .error .truncatedInput
  else .ok ((bytesToUnits (input.take (2 * cap))).takeWhile (fun u => u != 0),
    input.drop (2 * cap))

/-! ## Message types and codecs from `src/world/server/mod.rs` -/

/-- `ClientValidation` (server mod.rs): username, session key (both
`LuWStr33`) and a 32-byte fdb checksum. -/
structure ClientValidation where
  username : List Nat
  session_key : List Nat
  fdb_checksum : List Nat
deriving DecidableEq, Repr

/-- `ClientValidation::deserialize`: two LuWStr33 reads, then a plain
`Read::read` into a zero-initialized 32-byte buffer (which copies the bytes
available — up to 32 — and leaves the rest zero, never failing on an
in-memory stream), then one garbage byte read and discarded. -/
def clientValidationDeserialize (input : List Nat) :
    Except Err (ClientValidation × List Nat) := do
  let (username, r1) ← wstrDecode 33 input
  let (session_key, r2) ← wstrDecode 33 r1
  let buf := r2.take 32
  let fdb_checksum := buf ++ List.replicate (32 - buf.length) 0
  let r3 := r2.drop 32
  let (_, r4) ← readU8 r3
  .ok (⟨username, session_key, fdb_checksum⟩, r4)

/-- `ClientValidation::serialize`: the three fields then a zero garbage
byte. -/
def clientValidationSerialize (m : ClientValidation) : List Nat :=
  wstrEncode 33 m.username ++ wstrEncode 33 m.session_key ++
    m.fdb_checksum ++ [0]

/-- `CharacterCreateRequest` (server mod.rs). -/
structure CharacterCreateRequest where
  char_name : List Nat
  predef_name_ids : Nat × Nat × Nat
  shirt_color : Nat
  pants_color : Nat
  hair_style : Nat
  hair_color : Nat
  eyebrow_style : Nat
  eye_style : Nat
  mouth_style : Nat
deriving DecidableEq, Repr

/-- `CharacterCreateRequest::deserialize`: name, three name ids, then the
real u32 fields interleaved with unused u8/u32 reads that are discarded. -/
def characterCreateRequestDeserialize (input : List Nat) :
    Except Err (CharacterCreateRequest × List Nat) := do
  let (char_name, r1) ← wstrDecode 33 input
  let (name_id_1, r2) ← readU32 r1
  let (name_id_2, r3) ← readU32 r2
  let (name_id_3, r4) ← readU32 r3
  let (_, r5) ← readU8 r4
  let (_, r6) ← readU32 r5
  let (_, r7) ← readU32 r6
  let (shirt_color, r8) ← readU32 r7
  let (_, r9) ← readU32 r8
  let (pants_color, r10) ← readU32 r9
  let (hair_style, r11) ← readU32 r10
  let (hair_color, r12) ← readU32 r11
  let (_, r13) ← readU32 r12
  let (_, r14) ← readU32 r13
  let (eyebrow_style, r15) ← readU32 r14
  let (eye_style, r16) ← readU32 r15
  let (mouth_style, r17) ← readU32 r16
  let (_, r18) ← readU8 r17
  .ok (⟨char_name, (name_id_1, name_id_2, name_id_3), shirt_color,
    pants_color, hair_style, hair_color, eyebrow_style, eye_style,
    mouth_style⟩, r18)

/-- `CharacterCreateRequest::serialize`: fields in wire order with the
unused spans written as zero. -/
def characterCreateRequestSerialize (m : CharacterCreateRequest) :
    List Nat :=
  wstrEncode 33 m.char_name ++
  toLE4 m.predef_name_ids.1 ++ toLE4 m.predef_name_ids.2.1 ++
  toLE4 m.predef_name_ids.2.2 ++
  [0] ++ toLE4 0 ++ toLE4 0 ++
  toLE4 m.shirt_color ++ toLE4 0 ++ toLE4 m.pants_color ++
  toLE4 m.hair_style ++ toLE4 m.hair_color ++ toLE4 0 ++ toLE4 0 ++
  toLE4 m.eyebrow_style ++ toLE4 m.eye_style ++ toLE4 m.mouth_style ++ [0]

/-- `GeneralChatMessage` (server mod.rs); `message` is the list of Unicode
scalar values of the Rust `String`. -/
structure GeneralChatMessage where
  chat_channel : Nat
  source_id : Nat
  message : List Nat
deriving DecidableEq, Repr

/-- `GeneralChatMessage::deserialize`: u8 channel, u16 source, u32 length
prefix, then a single `Read::read` of up to `string_len*2` bytes into a
zero-initialized buffer of that size; the first `string_len - 1` code units
of the buffer are decoded lossily.  `string_len * 2` is u32 arithmetic
(overflow panic for `string_len ≥ 2^31`), and `string_len as usize - 1`
underflows when the prefix is 0; both are modelled as `panicked`. -/
def generalChatMessageDeserialize (input : List Nat) :
    Except Err (GeneralChatMessage × List Nat) := do
  let (chat_channel, r1) ← readU8 input
  let (source_id, r2) ← readU16 r1
  let (string_len, r3) ← readU32 r2
  if 4294967296 ≤ string_len * 2 then .error .panicked else
  let buf := r3.take (string_len * 2) ++
    List.replicate (string_len * 2 - (r3.take (string_len * 2)).length) 0
  let r4 := r3.drop (string_len * 2)
  if string_len = 0 then .error .panicked else
  let units := bytesToUnits (buf.take (2 * (string_len - 1)))
  .ok (⟨chat_channel, source_id, decodeUtf16Lossy units⟩, r4)

/-- `StringCheck` (server mod.rs); `string` is the list of Unicode scalar
values of the Rust `String`. -/
structure StringCheck where
  chat_mode : Nat
  chat_channel : Nat
  recipient_name : List Nat
  string : List Nat
deriving DecidableEq, Repr

/-- `StringCheck::deserialize`: u8 mode, u8 channel, LuWStr42 recipient,
u16 length prefix, then a single `Read::read` of up to `string_len*2` bytes
into a zero-initialized buffer of that size; all `string_len` code units are
decoded lossily.  `string_len * 2` is u16 arithmetic, so it overflows for
`string_len ≥ 2^15` (modelled as `panicked`). -/
def stringCheckDeserialize (input : List Nat) :
    Except Err (StringCheck × List Nat) := do
  let (chat_mode, r1) ← readU8 input
  let (chat_channel, r2) ← readU8 r1
  let (recipient_name, r3) ← wstrDecode 42 r2
  let (string_len, r4) ← readU16 r3
  if 65536 ≤ string_len * 2 then .error .panicked else
  let buf := r4.take (string_len * 2) ++
    List.replicate (string_len * 2 - (r4.take (string_len * 2)).length) 0
  let r5 := r4.drop (string_len * 2)
  let units := bytesToUnits buf
  .ok (⟨chat_mode, chat_channel, recipient_name, decodeUtf16Lossy units⟩, r5)

/-- `StringCheck::serialize`: mode and channel bytes, recipient, then the
UTF-16 code-unit count as u16 and the code units as little-endian bytes. -/
def stringCheckSerialize (m : StringCheck) : List Nat :=
  let units := encodeUtf16 m.string
  [m.chat_mode % 256, m.chat_channel % 256] ++
    wstrEncode 42 m.recipient_name ++ toLE2 units.length ++
    unitsToBytes units

/-- Modelled from the spec: `ServiceId` (crate::common, not under `src/`) is
a u16-width closed service-identifier union; the declared members are the
services named by the source (General, Auth, Chat, World, Client).  Decoding
a u16 outside the declared set fails with `UnknownDiscriminant` (§4.4). -/
def serviceIdValues : List Nat := [0, 1, 2, 4, 5]

/-- Modelled from the spec: the numeric value of `ServiceId::Chat`. -/
def serviceIdChat : Nat := 2

/-- Modelled from the spec: `ServiceId`'s closed-union decode — a u16 read
followed by membership dispatch. -/
def serviceIdDeserialize (input : List Nat) : Except Err (Nat × List Nat) := do
  let (v, r) ← readU16 input
  if v ∈ serviceIdValues then .ok (v, r) else .error .unknownDiscriminant

/-- `RouteMessage` (server mod.rs), generic in the chat payload type exactly
as the Rust impl is generic in the `ChatMessage: Deserialize/Serialize`
bound (`crate::chat` is not under `src/`). -/
inductive RouteMessage (χ : Type) where
  | Chat : χ → RouteMessage χ
deriving DecidableEq, Repr

/-- `RouteMessage::deserialize`: u32 packet size read and ignored, service
id, then dispatch — only `ServiceId::Chat` is accepted, every other id is
rejected via `err` (modelled as `UnknownDiscriminant` per §4.4/§7). -/
def routeMessageDeserialize {χ : Type}
    (chatDec : List Nat → Except Err (χ × List Nat)) (input : List Nat) :
    Except Err (RouteMessage χ × List Nat) := do
  let (_packet_size, r1) ← readU32 input
  let (service_id, r2) ← serviceIdDeserialize r1
  if service_id = serviceIdChat then do
    let (msg, r3) ← chatDec r2
    .ok (.Chat msg, r3)
  else .error .unknownDiscriminant

/-- `RouteMessage::serialize`: a zero u32 packet-size placeholder, the Chat
service id, then the payload. -/
def routeMessageSerialize {χ : Type} (chatEnc : χ → List Nat) :
    RouteMessage χ → List Nat
  | .Chat msg => toLE4 0 ++ toLE2 serviceIdChat ++ chatEnc msg

/-- `WorldMessage` (server mod.rs): the u32-discriminant service-message
union, restricted to the variants whose payload codecs are embedded here,
including its two empty-payload variants (`CharacterListRequest` and
`RequestFreeTrialRefresh`). -/
inductive WorldMessage where
  | ClientValidation : ClientValidation → WorldMessage
  | CharacterListRequest : WorldMessage
  | StringCheck : StringCheck → WorldMessage
  | RequestFreeTrialRefresh : WorldMessage

/-- Modelled from the spec: the `ServiceMessage`-derived codec for
`WorldMessage` (the derive macro is not under `src/`): a u32 discriminant
with the values declared in the source (1 `ClientValidation`,
2 `CharacterListRequest`, 25 `StringCheck`, 32 `RequestFreeTrialRefresh`),
then the variant payload; empty variants carry no payload; the union is
closed, so unknown discriminants fail (§4.4). -/
def worldMessageDeserialize (input : List Nat) :
    Except Err (WorldMessage × List Nat) := do
  let (disc, r1) ← readU32 input
  if disc = 1 then do
    let (m, r2) ← clientValidationDeserialize r1
    .ok (.ClientValidation m, r2)
  else if disc = 2 then .ok (.CharacterListRequest, r1)
  else if disc = 25 then do
    let (m, r2) ← stringCheckDeserialize r1
    .ok (.StringCheck m, r2)
  else if disc = 32 then .ok (.RequestFreeTrialRefresh, r1)
  else .error .unknownDiscriminant

/-- Modelled from the spec: the `ServiceMessage`-derived serializer for
`WorldMessage` — the declared u32 discriminant, then the payload (empty
variants write only the discriminant). -/
def worldMessageSerialize : WorldMessage → List Nat
  | .ClientValidation m => toLE4 1 ++ clientValidationSerialize m
  | .CharacterListRequest => toLE4 2
  | .StringCheck m => toLE4 25 ++ stringCheckSerialize m
  | .RequestFreeTrialRefresh => toLE4 32

/-! ## Message types and codecs from `src/world/client/mod.rs` -/

/-- `CharacterListResponse` (client mod.rs): the logically-first
`selected_char` field followed by the character list, generic in the record
type exactly as the Rust impls are generic in the
`CharListChar: Deserialize/Serialize` bound. -/
structure CharacterListResponse (ρ : Type) where
  selected_char : Nat
  chars : List ρ
deriving DecidableEq, Repr

/-- The `for _ in 0..len` loop of `CharacterListResponse::deserialize`:
read `n` records in order. -/
def readRecords {ρ : Type}
    (recDec : List Nat → Except Err (ρ × List Nat)) :
    Nat → List Nat → Except Err (List ρ × List Nat)
  | 0, input => .ok ([], input)
  | n + 1, input => do
      let (c, r1) ← recDec input
      let (cs, r2) ← readRecords recDec n r1
      .ok (c :: cs, r2)

/-- `CharacterListResponse::deserialize`: u8 count first, then the u8
selected character, then `count` records. -/
def characterListResponseDeserialize {ρ : Type}
    (recDec : List Nat → Except Err (ρ × List Nat)) (input : List Nat) :
    Except Err (CharacterListResponse ρ × List Nat) := do
  let (len, r1) ← readU8 input
  let (selected_char, r2) ← readU8 r1
  let (chars, r3) ← readRecords recDec len r2
  .ok (⟨selected_char, chars⟩, r3)

/-- `CharacterListResponse::serialize`: the true list length as the u8
count, then the selected character, then the records in order. -/
def characterListResponseSerialize {ρ : Type} (recEnc : ρ → List Nat)
    (m : CharacterListResponse ρ) : List Nat :=
  (m.chars.length % 256) :: (m.selected_char % 256) ::
    (m.chars.map recEnc).flatten

/-- `CharListChar` (client mod.rs), generic in the `ZoneId` and
`LVec<Lot, u16>` field types whose layouts live in `crate::common` (not
under `src/`). -/
structure CharListChar (ζ Λ : Type) where
  obj_id : Nat
  char_name : List Nat
  pending_name : List Nat
  requires_rename : Bool
  is_free_trial : Bool
  torso_color : Nat
  legs_color : Nat
  hair_style : Nat
  hair_color : Nat
  eyebrow_style : Nat
  eye_style : Nat
  mouth_style : Nat
  last_location : ζ
  equipped_items : Λ

/-- Modelled from the spec: the derive-generated `Serialize` for
`CharListChar` (the derive macro is not under `src/`): fields in declared
order, each `#[padding=N]` attribute an N-byte zero-filled span at its
declared position (§4.3, §8 padding zero-fill); `obj_id` is a u64,
`LuWString33` a fixed wide string of capacity 33, bools one byte each; the
`ZoneId` and `LVec` codecs are abstract parameters. -/
def charListCharSerialize {ζ Λ : Type} (zoneEnc : ζ → List Nat)
    (lvecEnc : Λ → List Nat) (c : CharListChar ζ Λ) : List Nat :=
  toLE8 c.obj_id ++ List.replicate 4 0 ++
  wstrEncode 33 c.char_name ++ wstrEncode 33 c.pending_name ++
  [boolByte c.requires_rename] ++ [boolByte c.is_free_trial] ++
  List.replicate 10 0 ++
  toLE4 c.torso_color ++ List.replicate 4 0 ++ toLE4 c.legs_color ++
  toLE4 c.hair_style ++ toLE4 c.hair_color ++ List.replicate 8 0 ++
  toLE4 c.eyebrow_style ++ toLE4 c.eye_style ++ toLE4 c.mouth_style ++
  List.replicate 4 0 ++ zoneEnc c.last_location ++ List.replicate 8 0 ++
  lvecEnc c.equipped_items

/-- `ClientMessage` (client mod.rs), restricted to the variants whose
payload codecs are embedded here, generic in the record type of the
character list. -/
inductive ClientMessage (ρ : Type) where
  | CharacterListResponse : CharacterListResponse ρ → ClientMessage ρ
  | CharacterDeleteResponse : Bool → ClientMessage ρ

/-- Modelled from the spec: the derive-generated `Serialize` for
`ClientMessage` (the derive macro is not under `src/`): the u32 discriminant
declared in the source (6 for the list response, 11 for the delete
response), then the `#[post_disc_padding=1]` zero byte, then the variant
payload (§4.4). -/
def clientMessageSerialize {ρ : Type} (recEnc : ρ → List Nat) :
    ClientMessage ρ → List Nat
  | .CharacterListResponse m =>
      toLE4 6 ++ [0] ++ characterListResponseSerialize recEnc m
  | .CharacterDeleteResponse b => toLE4 11 ++ [0] ++ [boolByte b]

/-! ## Helper lemmas -/

theorem length_unitsToBytes (l : List Nat) :
    (unitsToBytes l).length = 2 * l.length := by
  induction l with
  | nil => rfl
  | cons u r ih => simp [unitsToBytes, ih]; omega

theorem bytesToUnits_unitsToBytes (l : List Nat)
    (h : ∀ u ∈ l, u < 65536) :
    bytesToUnits (unitsToBytes l) = l := by
  induction l with
  | nil => rfl
  | cons u r ih =>
    have hu : u < 65536 := h u (by simp)
    have : u % 256 + 256 * (u / 256 % 256) = u := by omega
    simp [unitsToBytes, bytesToUnits, this, ih fun v hv => h v (by simp [hv])]

theorem takeWhile_append_replicate_zero (s : List Nat) (n : Nat)
    (hs : ∀ u ∈ s, u ≠ 0) (hn : 0 < n) :
    (s ++ List.replicate n 0).takeWhile (fun u => u != 0) = s := by
  induction s with
  | nil =>
    cases n with
    | zero => omega
    | succ m => simp [List.replicate_succ, List.takeWhile]
  | cons u r ih =>
    have hu : u ≠ 0 := hs u (by simp)
    have hb : (u != 0) = true := by simpa using hu
    simp [List.takeWhile_cons, hb, ih fun v hv => hs v (by simp [hv])]

theorem wstrEncode_length (cap : Nat) (s : List Nat) (h : s.length ≤ cap) :
    (wstrEncode cap s).length = 2 * cap := by
  simp [wstrEncode, length_unitsToBytes]; omega

theorem wstrDecode_wstrEncode (cap : Nat) (s : List Nat) (rest : List Nat)
    (hlen : s.length < cap) (hu : ∀ u ∈ s, u < 65536) (hz : ∀ u ∈ s, u ≠ 0) :
    wstrDecode cap (wstrEncode cap s ++ rest) = .ok (s, rest) := by
  have henc : (wstrEncode cap s).length = 2 * cap :=
    wstrEncode_length cap s (Nat.le_of_lt hlen)
  have hnl : ¬((wstrEncode cap s ++ rest).length < 2 * cap) := by
    simp [henc]
  have htake : (wstrEncode cap s ++ rest).take (2 * cap) = wstrEncode cap s := by
    rw [← henc, List.take_left]
  have hdrop : (wstrEncode cap s ++ rest).drop (2 * cap) = rest := by
    rw [← henc, List.drop_left]
  have hunits : bytesToUnits (wstrEncode cap s) =
      s ++ List.replicate (cap - s.length) 0 := by
    apply bytesToUnits_unitsToBytes
    intro u hu'
    rcases List.mem_append.mp hu' with h' | h'
    · exact hu u h'
    · have := List.eq_of_mem_replicate h'
      omega
  rw [wstrDecode, if_neg hnl, htake, hdrop, hunits,
    takeWhile_append_replicate_zero s _ hz (by omega)]

theorem readU16_toLE2 (v : Nat) (rest : List Nat) (h : v < 65536) :
    readU16 (toLE2 v ++ rest) = .ok (v, rest) := by
  simp [toLE2, readU16]
  omega

theorem readU32_toLE4 (v : Nat) (rest : List Nat) (h : v < 4294967296) :
    readU32 (toLE4 v ++ rest) = .ok (v, rest) := by
  simp [toLE4, readU32]
  omega

theorem encodeUtf16_lt (l : List Nat) (h : ∀ v ∈ l, ValidScalar v) :
    ∀ u ∈ encodeUtf16 l, u < 65536 := by
  induction l with
  | nil => simp [encodeUtf16]
  | cons v r ih =>
    have hv := h v (by simp)
    intro u hu
    rcases hv with ⟨hv1, _⟩
    have ihr := ih fun w hw => h w (by simp [hw])
    by_cases hsmall : v < 65536
    · rw [encodeUtf16, if_pos hsmall] at hu
      rcases List.mem_cons.mp hu with rfl | hu
      · exact hsmall
      · exact ihr u hu
    · rw [encodeUtf16, if_neg hsmall] at hu
      simp only [List.mem_cons] at hu
      rcases hu with h1 | h1 | hu
      · omega
      · omega
      · exact ihr u hu

theorem encodeUtf16_small (l : List Nat) (h : ∀ v ∈ l, v < 65536) :
    encodeUtf16 l = l := by
  induction l with
  | nil => rfl
  | cons v r ih =>
    rw [encodeUtf16, if_pos (h v (by simp)),
      ih fun w hw => h w (by simp [hw])]

theorem decodeUtf16Lossy_encodeUtf16 (l : List Nat)
    (h : ∀ v ∈ l, ValidScalar v) :
    decodeUtf16Lossy (encodeUtf16 l) = l := by
  induction l with
  | nil => rfl
  | cons v r ih =>
    have hv := h v (by simp)
    rcases hv with ⟨hv1, hv2⟩
    have ihr := ih fun w hw => h w (by simp [hw])
    by_cases hsmall : v < 65536
    · have hns : v < 55296 ∨ 57344 ≤ v := by omega
      rw [encodeUtf16, if_pos hsmall]
      cases hE : encodeUtf16 r with
      | nil =>
        rw [hE] at ihr
        have hr : r = [] := by rw [← ihr]; rfl
        subst hr
        rw [decodeUtf16Lossy, if_pos hns]
      | cons e es =>
        rw [hE] at ihr
        rw [decodeUtf16Lossy, if_pos hns, ihr]
    · have hhi1 : ¬(55296 + (v - 65536) / 1024 < 55296 ∨
          57344 ≤ 55296 + (v - 65536) / 1024) := by omega
      have hhi2 : 55296 + (v - 65536) / 1024 < 56320 := by omega
      have hlo : 56320 ≤ 56320 + (v - 65536) % 1024 ∧
          56320 + (v - 65536) % 1024 < 57344 := by omega
      have hcomb : 65536 + (55296 + (v - 65536) / 1024 - 55296) * 1024 +
          (56320 + (v - 65536) % 1024 - 56320) = v := by omega
      rw [encodeUtf16, if_neg hsmall, decodeUtf16Lossy, if_neg hhi1,
        if_pos hhi2, if_pos hlo, hcomb, ihr]

theorem exceptBindOk {α β : Type} (a : α) (f : α → Except Err β) :
    (Except.ok a >>= f) = f a := rfl

theorem exceptBindErr {α β : Type} (e : Err) (f : α → Except Err β) :
    ((Except.error e : Except Err α) >>= f) = .error e := rfl

theorem readRecords_succ {ρ : Type}
    (recDec : List Nat → Except Err (ρ × List Nat)) (n : Nat)
    (input : List Nat) :
    readRecords recDec (n + 1) input = (do
      let (c, r1) ← recDec input
      let (cs, r2) ← readRecords recDec n r1
      .ok (c :: cs, r2)) := rfl

theorem readRecords_flatten {ρ : Type}
    (recDec : List Nat → Except Err (ρ × List Nat)) (recEnc : ρ → List Nat)
    (l : List ρ) (rest : List Nat)
    (h : ∀ r ∈ l, ∀ tail, recDec (recEnc r ++ tail) = .ok (r, tail)) :
    readRecords recDec l.length ((l.map recEnc).flatten ++ rest) =
      .ok (l, rest) := by
  induction l with
  | nil => simp [readRecords]
  | cons c cs ih =>
    have hc := h c (by simp) ((cs.map recEnc).flatten ++ rest)
    simp only [List.map_cons, List.flatten_cons, List.length_cons,
      List.append_assoc]
    rw [readRecords, hc, exceptBindOk]
    show (do
      let (cs2, r2) ← readRecords recDec cs.length
        ((cs.map recEnc).flatten ++ rest)
      (.ok (c :: cs2, r2) : Except Err (List ρ × List Nat))) =
        .ok (c :: cs, rest)
    rw [ih fun r hr tail => h r (by simp [hr]) tail, exceptBindOk]

/-! ## Round-trip lemmas -/

/-- A list of code units valid as content of a fixed wide string of
capacity `cap`: it leaves room for the terminator and contains neither NUL
nor out-of-range units. -/
def WStrOk (cap : Nat) (s : List Nat) : Prop :=
  s.length < cap ∧ ∀ u ∈ s, u < 65536 ∧ u ≠ 0

instance (cap : Nat) (s : List Nat) : Decidable (WStrOk cap s) := by
  unfold WStrOk; infer_instance

theorem wstrDecode_wstrEncode_ok (cap : Nat) (s : List Nat)
    (rest : List Nat) (h : WStrOk cap s) :
    wstrDecode cap (wstrEncode cap s ++ rest) = .ok (s, rest) :=
  wstrDecode_wstrEncode cap s rest h.1 (fun u hu => (h.2 u hu).1)
    (fun u hu => (h.2 u hu).2)

/-- Head-position stepping lemma: a successful `u32` read of its own
little-endian bytes feeds the value and the remaining stream to the
continuation. -/
theorem stepU32 {γ : Type} (x : Nat) (hx : x < 4294967296)
    (rest : List Nat) (k : Nat × List Nat → Except Err γ) :
    (readU32 (toLE4 x ++ rest) >>= k) = k (x, rest) := by
  rw [readU32_toLE4 x rest hx]; rfl

/-- Head-position stepping lemma for a `u16` read. -/
theorem stepU16 {γ : Type} (x : Nat) (hx : x < 65536)
    (rest : List Nat) (k : Nat × List Nat → Except Err γ) :
    (readU16 (toLE2 x ++ rest) >>= k) = k (x, rest) := by
  rw [readU16_toLE2 x rest hx]; rfl

/-- Head-position stepping lemma for a byte read. -/
theorem stepU8 {γ : Type} (b : Nat) (rest : List Nat)
    (k : Nat × List Nat → Except Err γ) :
    (readU8 (b :: rest) >>= k) = k (b, rest) := rfl

/-- Head-position stepping lemma for a fixed wide-string read of its own
encoding. -/
theorem stepWStr {γ : Type} (cap : Nat) (s : List Nat) (h : WStrOk cap s)
    (rest : List Nat) (k : List Nat × List Nat → Except Err γ) :
    (wstrDecode cap (wstrEncode cap s ++ rest) >>= k) = k (s, rest) := by
  rw [wstrDecode_wstrEncode_ok cap s rest h]; rfl

theorem clientValidation_roundTrip (m : ClientValidation)
    (hu : WStrOk 33 m.username) (hs : WStrOk 33 m.session_key)
    (hc : m.fdb_checksum.length = 32) :
    clientValidationDeserialize (clientValidationSerialize m) =
      .ok (m, []) := by
  have h1 := wstrDecode_wstrEncode_ok 33 m.username
    (wstrEncode 33 m.session_key ++ (m.fdb_checksum ++ [0])) hu
  have h2 := wstrDecode_wstrEncode_ok 33 m.session_key
    (m.fdb_checksum ++ [0]) hs
  have htake : (m.fdb_checksum ++ [0]).take 32 = m.fdb_checksum := by
    rw [← hc, List.take_left]
  have hdrop : (m.fdb_checksum ++ [0]).drop 32 = [0] := by
    rw [← hc, List.drop_left]
  simp only [clientValidationSerialize, List.append_assoc,
    clientValidationDeserialize, h1, h2, exceptBindOk, htake, hdrop, hc,
    Nat.sub_self, List.replicate_zero, List.append_nil, readU8]

theorem characterCreateRequest_roundTrip (m : CharacterCreateRequest)
    (hn : WStrOk 33 m.char_name)
    (h1 : m.predef_name_ids.1 < 4294967296)
    (h2 : m.predef_name_ids.2.1 < 4294967296)
    (h3 : m.predef_name_ids.2.2 < 4294967296)
    (h4 : m.shirt_color < 4294967296) (h5 : m.pants_color < 4294967296)
    (h6 : m.hair_style < 4294967296) (h7 : m.hair_color < 4294967296)
    (h8 : m.eyebrow_style < 4294967296) (h9 : m.eye_style < 4294967296)
    (h10 : m.mouth_style < 4294967296) :
    characterCreateRequestDeserialize (characterCreateRequestSerialize m) =
      .ok (m, []) := by
  have hs : characterCreateRequestSerialize m =
      wstrEncode 33 m.char_name ++ (toLE4 m.predef_name_ids.1 ++
      (toLE4 m.predef_name_ids.2.1 ++ (toLE4 m.predef_name_ids.2.2 ++
      ([0] ++ (toLE4 0 ++ (toLE4 0 ++ (toLE4 m.shirt_color ++ (toLE4 0 ++
      (toLE4 m.pants_color ++ (toLE4 m.hair_style ++
      (toLE4 m.hair_color ++ (toLE4 0 ++ (toLE4 0 ++
      (toLE4 m.eyebrow_style ++ (toLE4 m.eye_style ++
      (toLE4 m.mouth_style ++ [0])))))))))))))))) := by
    simp [characterCreateRequestSerialize, List.append_assoc]
  rw [hs]
  unfold characterCreateRequestDeserialize
  refine Eq.trans (stepWStr 33 m.char_name hn _ _) ?_
  refine Eq.trans (stepU32 _ h1 _ _) ?_
  refine Eq.trans (stepU32 _ h2 _ _) ?_
  refine Eq.trans (stepU32 _ h3 _ _) ?_
  refine Eq.trans (stepU8 0 _ _) ?_
  refine Eq.trans (stepU32 0 (by omega) _ _) ?_
  refine Eq.trans (stepU32 0 (by omega) _ _) ?_
  refine Eq.trans (stepU32 _ h4 _ _) ?_
  refine Eq.trans (stepU32 0 (by omega) _ _) ?_
  refine Eq.trans (stepU32 _ h5 _ _) ?_
  refine Eq.trans (stepU32 _ h6 _ _) ?_
  refine Eq.trans (stepU32 _ h7 _ _) ?_
  refine Eq.trans (stepU32 0 (by omega) _ _) ?_
  refine Eq.trans (stepU32 0 (by omega) _ _) ?_
  refine Eq.trans (stepU32 _ h8 _ _) ?_
  refine Eq.trans (stepU32 _ h9 _ _) ?_
  refine Eq.trans (stepU32 _ h10 _ _) ?_
  refine Eq.trans (stepU8 0 _ _) ?_
  rfl

theorem characterListResponse_roundTrip {ρ : Type}
    (recDec : List Nat → Except Err (ρ × List Nat)) (recEnc : ρ → List Nat)
    (m : CharacterListResponse ρ)
    (hrec : ∀ r ∈ m.chars, ∀ tail, recDec (recEnc r ++ tail) = .ok (r, tail))
    (hlen : m.chars.length < 256) (hsel : m.selected_char < 256) :
    characterListResponseDeserialize recDec
      (characterListResponseSerialize recEnc m) = .ok (m, []) := by
  have hrr := readRecords_flatten recDec recEnc m.chars [] hrec
  simp only [List.append_nil] at hrr
  simp only [characterListResponseSerialize, characterListResponseDeserialize,
    readU8, Nat.mod_eq_of_lt hlen, Nat.mod_eq_of_lt hsel, hrr, exceptBindOk]

theorem stringCheck_roundTrip (m : StringCheck)
    (hm : m.chat_mode < 256) (hc : m.chat_channel < 256)
    (hr : WStrOk 42 m.recipient_name)
    (hstr : ∀ v ∈ m.string, ValidScalar v)
    (hn : (encodeUtf16 m.string).length < 32768) :
    stringCheckDeserialize (stringCheckSerialize m) = .ok (m, []) := by
  have hulen : (unitsToBytes (encodeUtf16 m.string)).length =
      2 * (encodeUtf16 m.string).length := length_unitsToBytes _
  have h16 := readU16_toLE2 (encodeUtf16 m.string).length
    (unitsToBytes (encodeUtf16 m.string)) (by omega)
  have hno : ¬(65536 ≤ (encodeUtf16 m.string).length * 2) := by omega
  have htk : (unitsToBytes (encodeUtf16 m.string)).take
      ((encodeUtf16 m.string).length * 2) =
      unitsToBytes (encodeUtf16 m.string) := by
    apply List.take_of_length_le; omega
  have hdp : (unitsToBytes (encodeUtf16 m.string)).drop
      ((encodeUtf16 m.string).length * 2) = [] := by
    apply List.drop_eq_nil_of_le; omega
  have hz : (encodeUtf16 m.string).length * 2 -
      (unitsToBytes (encodeUtf16 m.string)).length = 0 := by omega
  simp only [stringCheckSerialize, List.append_assoc, List.cons_append,
    List.nil_append, stringCheckDeserialize, readU8,
    wstrDecode_wstrEncode_ok 42 m.recipient_name _ hr, h16, exceptBindOk,
    hno, if_false, htk, hdp, hz, List.replicate_zero,
    List.append_nil, bytesToUnits_unitsToBytes _ (encodeUtf16_lt _ hstr),
    decodeUtf16Lossy_encodeUtf16 _ hstr, Nat.mod_eq_of_lt hm,
    Nat.mod_eq_of_lt hc]

theorem routeMessage_roundTrip {χ : Type}
    (chatDec : List Nat → Except Err (χ × List Nat)) (chatEnc : χ → List Nat)
    (m : RouteMessage χ)
    (hchat : ∀ c, chatDec (chatEnc c) = .ok (c, [])) :
    routeMessageDeserialize chatDec (routeMessageSerialize chatEnc m) =
      .ok (m, []) := by
  obtain ⟨c⟩ := m
  simp only [routeMessageSerialize, List.append_assoc,
    routeMessageDeserialize, serviceIdDeserialize, serviceIdChat,
    readU32_toLE4 0 _ (by omega),
    readU16_toLE2 2 _ (by omega), exceptBindOk, hchat c]
  rw [if_pos (show (2 : Nat) ∈ serviceIdValues by decide), exceptBindOk]
  simp [exceptBindOk, hchat c]

/-! ## Error-classification and totality lemmas -/

theorem readU8_error (input : List Nat) (e : Err)
    (h : readU8 input = .error e) : e = .truncatedInput := by
  unfold readU8 at h
  split at h
  · exact (Except.error.inj h).symm
  · exact absurd h (by simp)

theorem readU16_error (input : List Nat) (e : Err)
    (h : readU16 input = .error e) : e = .truncatedInput := by
  unfold readU16 at h
  split at h
  · exact absurd h (by simp)
  · exact (Except.error.inj h).symm

theorem readU32_error (input : List Nat) (e : Err)
    (h : readU32 input = .error e) : e = .truncatedInput := by
  unfold readU32 at h
  split at h
  · exact absurd h (by simp)
  · exact (Except.error.inj h).symm

theorem wstrDecode_error (cap : Nat) (input : List Nat) (e : Err)
    (h : wstrDecode cap input = .error e) : e = .truncatedInput := by
  unfold wstrDecode at h
  split at h
  · exact (Except.error.inj h).symm
  · exact absurd h (by simp)

theorem gcm_no_malformedText (input : List Nat) :
    generalChatMessageDeserialize input ≠ .error .malformedText := by
  intro hbad
  unfold generalChatMessageDeserialize at hbad
  rcases h1 : readU8 input with e1 | ⟨c, r1⟩
  · rw [h1, exceptBindErr, readU8_error input e1 h1] at hbad
    simp at hbad
  · simp only [h1, exceptBindOk] at hbad
    rcases h2 : readU16 r1 with e2 | ⟨s, r2⟩
    · rw [h2, exceptBindErr, readU16_error r1 e2 h2] at hbad
      simp at hbad
    · simp only [h2, exceptBindOk] at hbad
      rcases h3 : readU32 r2 with e3 | ⟨n, r3⟩
      · rw [h3, exceptBindErr, readU32_error r2 e3 h3] at hbad
        simp at hbad
      · simp only [h3, exceptBindOk] at hbad
        by_cases hov : 4294967296 ≤ n * 2
        · rw [if_pos hov] at hbad
          simp at hbad
        · rw [if_neg hov] at hbad
          by_cases hz : n = 0
          · rw [if_pos hz] at hbad
            simp at hbad
          · rw [if_neg hz] at hbad
            simp at hbad

theorem stringCheck_no_malformedText (input : List Nat) :
    stringCheckDeserialize input ≠ .error .malformedText := by
  intro hbad
  unfold stringCheckDeserialize at hbad
  rcases h1 : readU8 input with e1 | ⟨a, r1⟩
  · rw [h1, exceptBindErr, readU8_error input e1 h1] at hbad
    simp at hbad
  · simp only [h1, exceptBindOk] at hbad
    rcases h2 : readU8 r1 with e2 | ⟨b, r2⟩
    · rw [h2, exceptBindErr, readU8_error r1 e2 h2] at hbad
      simp at hbad
    · simp only [h2, exceptBindOk] at hbad
      rcases h3 : wstrDecode 42 r2 with e3 | ⟨w, r3⟩
      · rw [h3, exceptBindErr, wstrDecode_error 42 r2 e3 h3] at hbad
        simp at hbad
      · simp only [h3, exceptBindOk] at hbad
        rcases h4 : readU16 r3 with e4 | ⟨n, r4⟩
        · rw [h4, exceptBindErr, readU16_error r3 e4 h4] at hbad
          simp at hbad
        · simp only [h4, exceptBindOk] at hbad
          by_cases hov : 65536 ≤ n * 2
          · rw [if_pos hov] at hbad
            simp at hbad
          · rw [if_neg hov] at hbad
            simp at hbad

theorem stringCheck_decode_total (a b : Nat) (recip : List Nat) (n : Nat)
    (content rest : List Nat) (hrl : recip.length = 84) (hn : n < 32768)
    (hcl : content.length = n * 2) :
    stringCheckDeserialize
      (a :: b :: (recip ++ (toLE2 n ++ (content ++ rest)))) =
      .ok (⟨a, b, (bytesToUnits recip).takeWhile (fun u => u != 0),
        decodeUtf16Lossy (bytesToUnits content)⟩, rest) := by
  have h84 : ¬((recip ++ (toLE2 n ++ (content ++ rest))).length < 2 * 42) :=
    by simp [hrl]
  have htr : (recip ++ (toLE2 n ++ (content ++ rest))).take (2 * 42) =
      recip := by
    rw [show 2 * 42 = 84 from rfl, ← hrl, List.take_left]
  have hdr : (recip ++ (toLE2 n ++ (content ++ rest))).drop (2 * 42) =
      toLE2 n ++ (content ++ rest) := by
    rw [show 2 * 42 = 84 from rfl, ← hrl, List.drop_left]
  have h16 := readU16_toLE2 n (content ++ rest) (by omega)
  have hno : ¬(65536 ≤ n * 2) := by omega
  have htc : (content ++ rest).take (n * 2) = content := by
    rw [← hcl, List.take_left]
  have hdc : (content ++ rest).drop (n * 2) = rest := by
    rw [← hcl, List.drop_left]
  simp only [stringCheckDeserialize, readU8, wstrDecode, h84, if_false,
    htr, hdr, exceptBindOk, h16, hno, htc, hdc, hcl, Nat.sub_self,
    List.replicate_zero, List.append_nil]

theorem gcm_decode_total (c s0 s1 n : Nat) (content rest : List Nat)
    (h1 : 1 ≤ n) (hov : n * 2 < 4294967296) (hcl : content.length = n * 2) :
    generalChatMessageDeserialize
      (c :: s0 :: s1 :: (toLE4 n ++ (content ++ rest))) =
      .ok (⟨c, s0 + 256 * s1,
        decodeUtf16Lossy (bytesToUnits (content.take (2 * (n - 1))))⟩,
        rest) := by
  have h32 := readU32_toLE4 n (content ++ rest) (by omega)
  have hno : ¬(4294967296 ≤ n * 2) := by omega
  have hnz : ¬(n = 0) := by omega
  have htc : (content ++ rest).take (n * 2) = content := by
    rw [← hcl, List.take_left]
  have hdc : (content ++ rest).drop (n * 2) = rest := by
    rw [← hcl, List.drop_left]
  simp only [generalChatMessageDeserialize, readU8, readU16, exceptBindOk,
    h32, hno, if_false, htc, hdc, hcl, Nat.sub_self, List.replicate_zero,
    List.append_nil, hnz]

/-! ## Claim theorems -/

/-- C1 (counterexample): the round-trip law as claimed fails on the code
for a validly constructed `StringCheck`: a Rust `String` of 32768 ASCII
characters is constructible and its u16 length prefix (32768) is written
verbatim by the serializer, but the deserializer's u16 computation
`string_len * 2` overflows, so decoding the encoding panics instead of
returning the value. -/
theorem claim_C1_counterexample :
    stringCheckDeserialize (stringCheckSerialize
      ⟨7, 9, [65], List.replicate 32768 97⟩) = .error .panicked := by
  have henc : encodeUtf16 (List.replicate 32768 97) =
      List.replicate 32768 97 :=
    encodeUtf16_small _ fun v hv => by
      rw [List.eq_of_mem_replicate hv]; omega
  have hs : stringCheckSerialize ⟨7, 9, [65], List.replicate 32768 97⟩ =
      7 :: 9 :: (wstrEncode 42 [65] ++ (toLE2 32768 ++
        unitsToBytes (List.replicate 32768 97))) := by
    show [(7 : Nat) % 256, 9 % 256] ++ wstrEncode 42 [65] ++
        toLE2 (encodeUtf16 (List.replicate 32768 97)).length ++
        unitsToBytes (encodeUtf16 (List.replicate 32768 97)) = _
    rw [henc, List.length_replicate]
    rfl
  rw [hs]
  unfold stringCheckDeserialize
  refine Eq.trans (stepU8 7 _ _) ?_
  refine Eq.trans (stepU8 9 _ _) ?_
  refine Eq.trans (stepWStr 42 [65] (by decide) _ _) ?_
  refine Eq.trans (stepU16 32768 (by omega) _ _) ?_
  exact if_pos (by omega)

/-- C1 (amended): For every message type that has both a serializer and a
deserializer (the hand-written codecs of the two source files:
`ClientValidation`, `CharacterCreateRequest`, `CharacterListResponse`,
`StringCheck`, `RouteMessage`, plus the service-message union's
empty-payload variants `CharacterListRequest` and
`RequestFreeTrialRefresh`) and every validly constructed value `m`
(strings within their fixed capacities, scalars within their wire widths,
the character list within the documented client limit, component codecs
that themselves round-trip), deserializing the bytes produced by
serializing `m` yields `m` with no bytes left over — except that for
`StringCheck` the string must have fewer than 2^15 UTF-16 code units,
the bound forced by the decoder's overflowing u16 buffer arithmetic (the
counterexample shows the law fails at exactly 32768 units). -/
theorem claim_C1 :
    (∀ m : ClientValidation, WStrOk 33 m.username → WStrOk 33 m.session_key →
      m.fdb_checksum.length = 32 →
      clientValidationDeserialize (clientValidationSerialize m) =
        .ok (m, [])) ∧
    (∀ m : CharacterCreateRequest, WStrOk 33 m.char_name →
      m.predef_name_ids.1 < 4294967296 →
      m.predef_name_ids.2.1 < 4294967296 →
      m.predef_name_ids.2.2 < 4294967296 →
      m.shirt_color < 4294967296 → m.pants_color < 4294967296 →
      m.hair_style < 4294967296 → m.hair_color < 4294967296 →
      m.eyebrow_style < 4294967296 → m.eye_style < 4294967296 →
      m.mouth_style < 4294967296 →
      characterCreateRequestDeserialize
        (characterCreateRequestSerialize m) = .ok (m, [])) ∧
    (∀ (ρ : Type) (recDec : List Nat → Except Err (ρ × List Nat))
      (recEnc : ρ → List Nat) (m : CharacterListResponse ρ),
      (∀ r ∈ m.chars, ∀ tail, recDec (recEnc r ++ tail) = .ok (r, tail)) →
      m.chars.length ≤ 4 → m.selected_char < 256 →
      characterListResponseDeserialize recDec
        (characterListResponseSerialize recEnc m) = .ok (m, [])) ∧
    (∀ m : StringCheck, m.chat_mode < 256 → m.chat_channel < 256 →
      WStrOk 42 m.recipient_name → (∀ v ∈ m.string, ValidScalar v) →
      (encodeUtf16 m.string).length < 32768 →
      stringCheckDeserialize (stringCheckSerialize m) = .ok (m, [])) ∧
    (∀ (χ : Type) (chatDec : List Nat → Except Err (χ × List Nat))
      (chatEnc : χ → List Nat) (m : RouteMessage χ),
      (∀ c, chatDec (chatEnc c) = .ok (c, [])) →
      routeMessageDeserialize chatDec (routeMessageSerialize chatEnc m) =
        .ok (m, [])) ∧
    (worldMessageDeserialize
      (worldMessageSerialize .CharacterListRequest) =
      .ok (.CharacterListRequest, []) ∧
     worldMessageDeserialize
      (worldMessageSerialize .RequestFreeTrialRefresh) =
      .ok (.RequestFreeTrialRefresh, [])) := by
  refine ⟨clientValidation_roundTrip, characterCreateRequest_roundTrip,
    ?_, stringCheck_roundTrip, ?_, rfl, rfl⟩
  · intro ρ recDec recEnc m hrec hlen hsel
    exact characterListResponse_roundTrip recDec recEnc m hrec
      (by omega) hsel
  · intro χ chatDec chatEnc m hchat
    exact routeMessage_roundTrip chatDec chatEnc m hchat

/-- Witness for C1: concrete round trips through each of the five codecs,
the character list at the documented 4-record client limit, hypotheses
discharged by `decide`/`rfl`. -/
theorem claim_C1_witness :
    (WStrOk 33 [65, 66] ∧
      clientValidationDeserialize (clientValidationSerialize
        ⟨[65, 66], [67], List.replicate 32 5⟩) =
        .ok (⟨[65, 66], [67], List.replicate 32 5⟩, [])) ∧
    characterCreateRequestDeserialize (characterCreateRequestSerialize
      ⟨[72], (1, 2, 3), 4, 5, 6, 7, 8, 9, 10⟩) =
      .ok (⟨[72], (1, 2, 3), 4, 5, 6, 7, 8, 9, 10⟩, []) ∧
    characterListResponseDeserialize readU8 (characterListResponseSerialize
      (fun n => [n]) ⟨1, [10, 20, 30, 40]⟩) =
      .ok (⟨1, [10, 20, 30, 40]⟩, []) ∧
    stringCheckDeserialize (stringCheckSerialize ⟨7, 9, [65], [97, 98]⟩) =
      .ok (⟨7, 9, [65], [97, 98]⟩, []) ∧
    routeMessageDeserialize readU8 (routeMessageSerialize (fun n => [n])
      (.Chat 42)) = .ok (.Chat 42, []) ∧
    worldMessageDeserialize (worldMessageSerialize .CharacterListRequest) =
      .ok (.CharacterListRequest, []) ∧
    worldMessageDeserialize
      (worldMessageSerialize .RequestFreeTrialRefresh) =
      .ok (.RequestFreeTrialRefresh, []) := by
  refine ⟨⟨by decide, claim_C1.1 _ (by decide) (by decide) (by decide)⟩,
    claim_C1.2.1 _ (by decide) (by decide) (by decide) (by decide)
      (by decide) (by decide) (by decide) (by decide) (by decide)
      (by decide) (by decide),
    claim_C1.2.2.1 Nat readU8 (fun n => [n]) ⟨1, [10, 20, 30, 40]⟩
      (fun r _ tail => rfl) (by decide) (by decide),
    claim_C1.2.2.2.1 _ (by decide) (by decide) (by decide) (by decide)
      (by decide),
    claim_C1.2.2.2.2.1 Nat readU8 (fun n => [n]) (.Chat 42)
      (fun c => rfl),
    claim_C1.2.2.2.2.2.1, claim_C1.2.2.2.2.2.2⟩

/-- C2: Deserializing `ClientValidation` consumes exactly one trailing
filler byte after the 32-byte checksum and discards its value (the result
does not depend on the filler byte, the checksum field equals the 32 bytes
before it, and the bytes after the filler are returned untouched), and
serializing any `ClientValidation` value writes a zero byte at that
position (the byte at offset 164, directly after the checksum) regardless
of the value's fields. -/
theorem claim_C2 :
    (∀ (u s c : List Nat) (b b' : Nat) (rest : List Nat),
      u.length = 66 → s.length = 66 → c.length = 32 →
      clientValidationDeserialize (u ++ s ++ c ++ b :: rest) =
        clientValidationDeserialize (u ++ s ++ c ++ b' :: rest)) ∧
    (∀ (u s c : List Nat) (b : Nat) (rest : List Nat),
      u.length = 66 → s.length = 66 → c.length = 32 →
      ∃ out : ClientValidation,
        clientValidationDeserialize (u ++ s ++ c ++ b :: rest) =
          .ok (out, rest) ∧ out.fdb_checksum = c) ∧
    (∀ m : ClientValidation, m.username.length ≤ 33 →
      m.session_key.length ≤ 33 → m.fdb_checksum.length = 32 →
      ∃ pre, clientValidationSerialize m = pre ++ [0] ∧
        pre.length = 164) := by
  have key : ∀ (u s c : List Nat) (b : Nat) (rest : List Nat),
      u.length = 66 → s.length = 66 → c.length = 32 →
      clientValidationDeserialize (u ++ s ++ c ++ b :: rest) =
        .ok (⟨(bytesToUnits u).takeWhile (fun x => x != 0),
          (bytesToUnits s).takeWhile (fun x => x != 0), c⟩,
          rest) := by
    intro u s c b rest hu hs hc
    have h66 : ¬((u ++ (s ++ (c ++ b :: rest))).length < 66) := by
      simp [hu]
    have htu : (u ++ (s ++ (c ++ b :: rest))).take 66 = u := by
      rw [← hu, List.take_left]
    have hdu : (u ++ (s ++ (c ++ b :: rest))).drop 66 =
        s ++ (c ++ b :: rest) := by
      rw [← hu, List.drop_left]
    have h66s : ¬((s ++ (c ++ b :: rest)).length < 66) := by
      simp [hs]
    have hts : (s ++ (c ++ b :: rest)).take 66 = s := by
      rw [← hs, List.take_left]
    have hds : (s ++ (c ++ b :: rest)).drop 66 = c ++ b :: rest := by
      rw [← hs, List.drop_left]
    have htc : (c ++ b :: rest).take 32 = c := by
      rw [← hc, List.take_left]
    have hdc : (c ++ b :: rest).drop 32 = b :: rest := by
      rw [← hc, List.drop_left]
    simp only [List.append_assoc, clientValidationDeserialize, wstrDecode,
      h66, if_false, htu, hdu, h66s, hts, hds, exceptBindOk, htc, hdc, hc,
      Nat.sub_self, List.replicate_zero, List.append_nil, readU8]
  refine ⟨?_, ?_, ?_⟩
  · intro u s c b b' rest hu hs hc
    rw [key u s c b rest hu hs hc, key u s c b' rest hu hs hc]
  · intro u s c b rest hu hs hc
    exact ⟨_, key u s c b rest hu hs hc, rfl⟩
  · intro m hu hs hc
    refine ⟨wstrEncode 33 m.username ++ wstrEncode 33 m.session_key ++
      m.fdb_checksum, ?_, ?_⟩
    · simp [clientValidationSerialize]
    · simp [wstrEncode_length 33 _ hu, wstrEncode_length 33 _ hs, hc]

/-- Witness for C2: the three parts at a concrete stream (two 66-byte
name regions, a 32-byte checksum, filler bytes 9 and 200, two trailing
bytes) and a concrete value. -/
theorem claim_C2_witness :
    (clientValidationDeserialize (List.replicate 66 1 ++
      List.replicate 66 2 ++ List.replicate 32 3 ++ 9 :: [7, 8]) =
      clientValidationDeserialize (List.replicate 66 1 ++
        List.replicate 66 2 ++ List.replicate 32 3 ++ 200 :: [7, 8])) ∧
    (∃ out : ClientValidation,
      clientValidationDeserialize (List.replicate 66 1 ++
        List.replicate 66 2 ++ List.replicate 32 3 ++ 9 :: [7, 8]) =
        .ok (out, [7, 8]) ∧ out.fdb_checksum = List.replicate 32 3) ∧
    (∃ pre, clientValidationSerialize ⟨[65], [66], List.replicate 32 4⟩ =
      pre ++ [0] ∧ pre.length = 164) :=
  ⟨claim_C2.1 _ _ _ 9 200 _ (by decide) (by decide) (by decide),
   claim_C2.2.1 _ _ _ 9 _ (by decide) (by decide) (by decide),
   claim_C2.2.2 _ (by decide) (by decide) (by decide)⟩

/-- C3: `CharacterListResponse` decoding reads the u8 count first, then
the u8 selected-character scalar, then `count` records; the decoded value
presents `selected_char` first (its logically-first structure field)
followed by the records in wire order — decoding `[count=2][selected=1]`
followed by two records yields `selected_char = 1` and the two records in
order.  Serialization writes the same wire order with the count equal to
the record list's length. -/
theorem claim_C3 :
    (∀ (ρ : Type) (recDec : List Nat → Except Err (ρ × List Nat))
      (r0 r1 : ρ) (bs rest1 rest2 : List Nat),
      recDec bs = .ok (r0, rest1) → recDec rest1 = .ok (r1, rest2) →
      characterListResponseDeserialize recDec (2 :: 1 :: bs) =
        .ok (⟨1, [r0, r1]⟩, rest2)) ∧
    (∀ (ρ : Type) (recEnc : ρ → List Nat) (m : CharacterListResponse ρ),
      m.chars.length < 256 → m.selected_char < 256 →
      characterListResponseSerialize recEnc m =
        m.chars.length :: m.selected_char ::
          (m.chars.map recEnc).flatten) := by
  constructor
  · intro ρ recDec r0 r1 bs rest1 rest2 h0 h1
    have h2 : readRecords recDec 2 bs = .ok ([r0, r1], rest2) := by
      rw [show (2 : Nat) = 1 + 1 from rfl, readRecords_succ, h0,
        exceptBindOk]
      show (do
        let (cs, r2) ← readRecords recDec 1 rest1
        (.ok (r0 :: cs, r2) : Except Err (List ρ × List Nat))) = _
      rw [show (1 : Nat) = 0 + 1 from rfl, readRecords_succ, h1,
        exceptBindOk]
      rfl
    simp only [characterListResponseDeserialize, readU8, exceptBindOk, h2]
  · intro ρ recEnc m hlen hsel
    simp only [characterListResponseSerialize, Nat.mod_eq_of_lt hlen,
      Nat.mod_eq_of_lt hsel]

/-- Witness for C3: the wire example `[count=2][selected=1][rec0][rec1]`
with single-byte records 10 and 20 plus a leftover byte, and a concrete
4-record serialization. -/
theorem claim_C3_witness :
    characterListResponseDeserialize readU8 (2 :: 1 :: [10, 20, 30]) =
      .ok (⟨1, [10, 20]⟩, [30]) ∧
    characterListResponseSerialize (fun n => [n]) ⟨3, [10, 20, 30, 40]⟩ =
      4 :: 3 :: [10, 20, 30, 40] :=
  ⟨claim_C3.1 Nat readU8 10 20 [10, 20, 30] [20, 30] [30] rfl rfl,
   by
    have := claim_C3.2 Nat (fun n => [n]) ⟨3, [10, 20, 30, 40]⟩
      (by decide) (by decide)
    simpa using this⟩

/-- C4: The two variable-wide string conventions hold per message type:
for the "inclusive" codec (`GeneralChatMessage.message`, u32 length prefix)
decoding prefix 3 followed by the UTF-16 content "ab\0" yields "ab"
(decoded length = prefix − 1); for the "exclusive" codec
(`StringCheck.string`, u16 prefix) encoding "ab" produces length prefix 2
(the two bytes after the 86-byte header) and decoding prefix 2 followed by
"ab" yields "ab" (decoded length = prefix). -/
theorem claim_C4 :
    generalChatMessageDeserialize
      ([5] ++ [7, 0] ++ [3, 0, 0, 0] ++ [97, 0, 98, 0, 0, 0]) =
      .ok (⟨5, 7, [97, 98]⟩, []) ∧
    (stringCheckSerialize ⟨7, 9, [65], [97, 98]⟩).drop 86 =
      [2, 0, 97, 0, 98, 0] ∧
    stringCheckDeserialize ([7, 9] ++ wstrEncode 42 [65] ++
      [2, 0, 97, 0, 98, 0]) = .ok (⟨7, 9, [65], [97, 98]⟩, []) :=
  ⟨rfl, by decide, rfl⟩

/-- C5 (failing input): contrary to the claimed `TruncatedInput` error,
the wide-string content reads of `StringCheck` and `GeneralChatMessage`
use a single unchecked `Read::read` into a zero-initialized buffer, so
when fewer content bytes remain than the declared length requires,
deserialization succeeds with the missing code units read as NULs instead
of returning an error: a `StringCheck` stream declaring 2 code units but
providing one content byte decodes to the string "a\0", and a
`GeneralChatMessage` stream declaring 3 code units but providing two
content bytes decodes to "a\0". -/
theorem claim_C5_failing :
    stringCheckDeserialize ([7, 9] ++ wstrEncode 42 [65] ++ [2, 0] ++
      [97]) = .ok (⟨7, 9, [65], [97, 0]⟩, []) ∧
    generalChatMessageDeserialize ([5] ++ [7, 0] ++ [3, 0, 0, 0] ++
      [97, 0]) = .ok (⟨5, 7, [97, 0]⟩, []) :=
  ⟨rfl, rfl⟩

/-- C6: For every input stream whose service identifier is not
`ServiceId::Chat`, `RouteMessage` deserialization fails with
`UnknownDiscriminant` no matter what bytes follow the identifier (so no
input beyond the discriminant is consumed), for every chat payload
codec. -/
theorem claim_C6 :
    ∀ (χ : Type) (chatDec : List Nat → Except Err (χ × List Nat))
      (size : List Nat) (id : Nat) (rest : List Nat),
      size.length = 4 → id < 65536 → id ≠ 2 →
      routeMessageDeserialize chatDec (size ++ toLE2 id ++ rest) =
        .error .unknownDiscriminant := by
  intro χ chatDec size id rest hsz hid hne
  obtain ⟨b0, b1, b2, b3, hsize⟩ : ∃ b0 b1 b2 b3,
      size = [b0, b1, b2, b3] := by
    match size, hsz with
    | [b0, b1, b2, b3], _ => exact ⟨b0, b1, b2, b3, rfl⟩
  subst hsize
  have h32 : readU32 ([b0, b1, b2, b3] ++ (toLE2 id ++ rest)) =
      .ok (b0 + 256 * b1 + 65536 * b2 + 16777216 * b3,
        toLE2 id ++ rest) := rfl
  by_cases hmem : id ∈ serviceIdValues
  · simp only [List.append_assoc, routeMessageDeserialize, h32,
      exceptBindOk, serviceIdDeserialize, readU16_toLE2 id rest hid,
      if_pos hmem, serviceIdChat, if_neg hne]
  · simp only [List.append_assoc, routeMessageDeserialize, h32,
      exceptBindOk, serviceIdDeserialize, readU16_toLE2 id rest hid,
      if_neg hmem, exceptBindErr]

/-- Witness for C6: service id 4 (`ServiceId::World`, declared elsewhere
but not in `RouteMessage`'s set) and service id 3 (not a declared service
at all) are both rejected with `UnknownDiscriminant`. -/
theorem claim_C6_witness :
    routeMessageDeserialize readU8 ([9, 9, 9, 9] ++ toLE2 4 ++ [1, 2]) =
      .error .unknownDiscriminant ∧
    routeMessageDeserialize readU8 ([9, 9, 9, 9] ++ toLE2 3 ++ [1, 2]) =
      .error .unknownDiscriminant :=
  ⟨claim_C6 Nat readU8 [9, 9, 9, 9] 4 [1, 2] (by decide) (by decide)
    (by decide),
   claim_C6 Nat readU8 [9, 9, 9, 9] 3 [1, 2] (by decide) (by decide)
    (by decide)⟩

/-- C7 (counterexample): the claim "for every byte content of the declared
length, decoding succeeds" fails on the code: a `GeneralChatMessage`
stream with length prefix 0 followed by content of exactly the declared
length (zero bytes) does not decode successfully — the decoder's
`string_len as usize - 1` underflows (a panic, though not a
`MalformedText` error). -/
theorem claim_C7_counterexample :
    generalChatMessageDeserialize ([5] ++ [7, 0] ++ [0, 0, 0, 0] ++ []) =
      .error .panicked := rfl

/-- C7 (amended): deserializing a wide-string field never returns an error
because the 16-bit content is ill-formed UTF-16 — `MalformedText` is never
surfaced on any input of either codec — and for every declared length
whose byte count stays inside the decoder's length arithmetic (u16:
`n < 2^15` for `StringCheck`; u32: `1 ≤ n` and `n*2 < 2^32` for
`GeneralChatMessage`), every content of the declared length decodes
successfully by lossy replacement. -/
theorem claim_C7 :
    (∀ input, generalChatMessageDeserialize input ≠ .error .malformedText) ∧
    (∀ input, stringCheckDeserialize input ≠ .error .malformedText) ∧
    (∀ (a b : Nat) (recip : List Nat) (n : Nat) (content rest : List Nat),
      recip.length = 84 → n < 32768 → content.length = n * 2 →
      ∃ m, stringCheckDeserialize
        (a :: b :: (recip ++ (toLE2 n ++ (content ++ rest)))) =
        .ok (m, rest)) ∧
    (∀ (c s0 s1 n : Nat) (content rest : List Nat),
      1 ≤ n → n * 2 < 4294967296 → content.length = n * 2 →
      ∃ m, generalChatMessageDeserialize
        (c :: s0 :: s1 :: (toLE4 n ++ (content ++ rest))) =
        .ok (m, rest)) :=
  ⟨gcm_no_malformedText, stringCheck_no_malformedText,
   fun a b recip n content rest hrl hn hcl =>
     ⟨_, stringCheck_decode_total a b recip n content rest hrl hn hcl⟩,
   fun c s0 s1 n content rest h1 hov hcl =>
     ⟨_, gcm_decode_total c s0 s1 n content rest h1 hov hcl⟩⟩

/-- Witness for C7: ill-formed UTF-16 content (an unpaired surrogate
`0xD800` and a lone low surrogate `0xDC00`) of exactly the declared
length decodes successfully in both codecs, and the no-error parts hold at
a concrete truncated input. -/
theorem claim_C7_witness :
    generalChatMessageDeserialize [] ≠ .error .malformedText ∧
    stringCheckDeserialize [] ≠ .error .malformedText ∧
    (∃ m, stringCheckDeserialize
      (7 :: 9 :: (List.replicate 84 0 ++ (toLE2 2 ++
        ([0, 216, 97, 0] ++ [5])))) = .ok (m, [5])) ∧
    (∃ m, generalChatMessageDeserialize
      (5 :: 7 :: 0 :: (toLE4 2 ++ ([0, 220, 97, 0] ++ [6])))
      = .ok (m, [6])) :=
  ⟨claim_C7.1 [], claim_C7.2.1 [],
   claim_C7.2.2.1 7 9 (List.replicate 84 0) 2 [0, 216, 97, 0] [5]
     (by decide) (by decide) (by decide),
   claim_C7.2.2.2 5 7 0 2 [0, 220, 97, 0] [6] (by decide) (by decide)
     (by decide)⟩

/-- C8: Serializing any struct with declared padding or unused filler
spans writes zero bytes at those wire offsets for every value of the real
fields: `CharacterCreateRequest`'s unused u8/u32 fields (offset 78 a
nine-byte zero run, offset 91 four zero bytes, offset 107 eight zero
bytes, offset 127 a zero byte), `CharListChar`'s declared padding spans at
their declared positions, and `ClientMessage`'s single padding byte after
the 4-byte discriminant. -/
theorem claim_C8 :
    (∀ m : CharacterCreateRequest, m.char_name.length ≤ 33 →
      ∃ a b c d, characterCreateRequestSerialize m =
        a ++ (0 :: List.replicate 8 0) ++ b ++ List.replicate 4 0 ++ c ++
          List.replicate 8 0 ++ d ++ [0] ∧
        a.length = 78 ∧ b.length = 4 ∧ c.length = 12 ∧ d.length = 12) ∧
    (∀ (ζ Λ : Type) (zoneEnc : ζ → List Nat) (lvecEnc : Λ → List Nat)
      (ch : CharListChar ζ Λ), ch.char_name.length ≤ 33 →
      ch.pending_name.length ≤ 33 →
      ∃ s1 s2 s3 s4 s5, charListCharSerialize zoneEnc lvecEnc ch =
        s1 ++ List.replicate 4 0 ++ s2 ++ List.replicate 10 0 ++ s3 ++
          List.replicate 4 0 ++ s4 ++ List.replicate 8 0 ++ s5 ++
          List.replicate 4 0 ++ zoneEnc ch.last_location ++
          List.replicate 8 0 ++ lvecEnc ch.equipped_items ∧
        s1.length = 8 ∧ s2.length = 134 ∧ s3.length = 4 ∧
        s4.length = 12 ∧ s5.length = 12) ∧
    (∀ (ρ : Type) (recEnc : ρ → List Nat) (msg : ClientMessage ρ),
      ∃ tag rest, clientMessageSerialize recEnc msg =
        tag ++ [0] ++ rest ∧ tag.length = 4) := by
  refine ⟨?_, ?_, ?_⟩
  · intro m hn
    refine ⟨wstrEncode 33 m.char_name ++ (toLE4 m.predef_name_ids.1 ++
        (toLE4 m.predef_name_ids.2.1 ++ toLE4 m.predef_name_ids.2.2)),
      toLE4 m.shirt_color,
      toLE4 m.pants_color ++ (toLE4 m.hair_style ++ toLE4 m.hair_color),
      toLE4 m.eyebrow_style ++ (toLE4 m.eye_style ++ toLE4 m.mouth_style),
      ?_, ?_, ?_, ?_, ?_⟩
    · simp [characterCreateRequestSerialize, toLE4, List.append_assoc,
        List.replicate_succ]
    · simp [wstrEncode_length 33 _ hn, toLE4]
    · simp [toLE4]
    · simp [toLE4]
    · simp [toLE4]
  · intro ζ Λ zoneEnc lvecEnc ch hc hp
    refine ⟨toLE8 ch.obj_id,
      wstrEncode 33 ch.char_name ++ (wstrEncode 33 ch.pending_name ++
        ([boolByte ch.requires_rename] ++ [boolByte ch.is_free_trial])),
      toLE4 ch.torso_color,
      toLE4 ch.legs_color ++ (toLE4 ch.hair_style ++ toLE4 ch.hair_color),
      toLE4 ch.eyebrow_style ++ (toLE4 ch.eye_style ++
        toLE4 ch.mouth_style),
      ?_, ?_, ?_, ?_, ?_, ?_⟩
    · simp [charListCharSerialize, List.append_assoc]
    · simp [toLE8]
    · simp [wstrEncode_length 33 _ hc, wstrEncode_length 33 _ hp]
    · simp [toLE4]
    · simp [toLE4]
    · simp [toLE4]
  · intro ρ recEnc msg
    cases msg with
    | CharacterListResponse m =>
      exact ⟨toLE4 6, characterListResponseSerialize recEnc m,
        by simp [clientMessageSerialize], by simp [toLE4]⟩
    | CharacterDeleteResponse b =>
      exact ⟨toLE4 11, [boolByte b],
        by simp [clientMessageSerialize], by simp [toLE4]⟩

/-- Witness for C8: the padding decompositions at concrete values of all
three structs (with a one-byte zone and equipment encoding for the
character record, and the delete-response variant of
`ClientMessage`). -/
theorem claim_C8_witness :
    (∃ a b c d, characterCreateRequestSerialize
      ⟨[72], (1, 2, 3), 4, 5, 6, 7, 8, 9, 10⟩ =
      a ++ (0 :: List.replicate 8 0) ++ b ++ List.replicate 4 0 ++ c ++
        List.replicate 8 0 ++ d ++ [0] ∧
      a.length = 78 ∧ b.length = 4 ∧ c.length = 12 ∧ d.length = 12) ∧
    (∃ s1 s2 s3 s4 s5, charListCharSerialize (fun z : Nat => [z])
      (fun l : Nat => [l])
      ⟨11, [65], [66], true, false, 1, 2, 3, 4, 5, 6, 7, 8, 9⟩ =
      s1 ++ List.replicate 4 0 ++ s2 ++ List.replicate 10 0 ++ s3 ++
        List.replicate 4 0 ++ s4 ++ List.replicate 8 0 ++ s5 ++
        List.replicate 4 0 ++ [8] ++ List.replicate 8 0 ++ [9] ∧
      s1.length = 8 ∧ s2.length = 134 ∧ s3.length = 4 ∧
      s4.length = 12 ∧ s5.length = 12) ∧
    (∃ tag rest, clientMessageSerialize (fun n : Nat => [n])
      (.CharacterDeleteResponse true) = tag ++ [0] ++ rest ∧
      tag.length = 4) :=
  ⟨claim_C8.1 ⟨[72], (1, 2, 3), 4, 5, 6, 7, 8, 9, 10⟩ (by decide),
   claim_C8.2.1 Nat Nat (fun z => [z]) (fun l => [l])
     ⟨11, [65], [66], true, false, 1, 2, 3, 4, 5, 6, 7, 8, 9⟩
     (by decide) (by decide),
   claim_C8.2.2 Nat (fun n => [n]) (.CharacterDeleteResponse true)⟩

/-- C9: The outer u32 length field of `RouteMessage` is a placeholder:
serialization writes 0 for it (the first four output bytes are zero for
every value and payload codec), and deserialization does not depend on it
(any two input streams differing only in those four bytes decode
identically, for every chat payload codec). -/
theorem claim_C9 :
    (∀ (χ : Type) (chatEnc : χ → List Nat) (m : RouteMessage χ),
      (routeMessageSerialize chatEnc m).take 4 = [0, 0, 0, 0]) ∧
    (∀ (χ : Type) (chatDec : List Nat → Except Err (χ × List Nat))
      (a b rest : List Nat), a.length = 4 → b.length = 4 →
      routeMessageDeserialize chatDec (a ++ rest) =
        routeMessageDeserialize chatDec (b ++ rest)) := by
  constructor
  · intro χ chatEnc m
    obtain ⟨c⟩ := m
    simp [routeMessageSerialize, toLE4, toLE2]
  · intro χ chatDec a b rest ha hb
    obtain ⟨a0, a1, a2, a3, hA⟩ : ∃ x0 x1 x2 x3, a = [x0, x1, x2, x3] := by
      match a, ha with
      | [x0, x1, x2, x3], _ => exact ⟨x0, x1, x2, x3, rfl⟩
    obtain ⟨b0, b1, b2, b3, hB⟩ : ∃ x0 x1 x2 x3, b = [x0, x1, x2, x3] := by
      match b, hb with
      | [x0, x1, x2, x3], _ => exact ⟨x0, x1, x2, x3, rfl⟩
    subst hA hB
    simp only [routeMessageDeserialize, List.cons_append, List.nil_append,
      readU32, exceptBindOk]

/-- Witness for C9: the placeholder is zero for a concrete routed chat
payload, and two concrete streams differing only in the four length bytes
decode identically. -/
theorem claim_C9_witness :
    (routeMessageSerialize (fun n : Nat => [n]) (.Chat 42)).take 4 =
      [0, 0, 0, 0] ∧
    routeMessageDeserialize readU8 ([9, 9, 9, 9] ++ [2, 0, 42]) =
      routeMessageDeserialize readU8 ([1, 2, 3, 4] ++ [2, 0, 42]) :=
  ⟨claim_C9.1 Nat (fun n => [n]) (.Chat 42),
   claim_C9.2 Nat readU8 [9, 9, 9, 9] [1, 2, 3, 4] [2, 0, 42]
     (by decide) (by decide)⟩

/-- C10: `GeneralChatMessage` decoding computes the code-unit count as
length prefix minus 1, so it is free of arithmetic underflow exactly under
the precondition that the u32 length prefix is at least 1: for every
stream with prefix `n ≥ 1` (and `n*2` within u32 range) decoding never
panics, and the precondition is necessary — a length prefix of 0 makes
the subtraction underflow (a panic) for every remainder of the stream. -/
theorem claim_C10 :
    (∀ (c s0 s1 n : Nat) (rest : List Nat), 1 ≤ n → n * 2 < 4294967296 →
      generalChatMessageDeserialize (c :: s0 :: s1 :: (toLE4 n ++ rest)) ≠
        .error .panicked) ∧
    (∀ (c s0 s1 : Nat) (rest : List Nat),
      generalChatMessageDeserialize (c :: s0 :: s1 :: (toLE4 0 ++ rest)) =
        .error .panicked) := by
  constructor
  · intro c s0 s1 n rest h1 hov
    have h32 := readU32_toLE4 n rest (by omega)
    have hno : ¬(4294967296 ≤ n * 2) := by omega
    have hnz : ¬(n = 0) := by omega
    simp only [generalChatMessageDeserialize, readU8, readU16,
      exceptBindOk, h32, hno, if_false, hnz]
    simp
  · intro c s0 s1 rest
    have h32 := readU32_toLE4 0 rest (by omega)
    simp only [generalChatMessageDeserialize, readU8, readU16,
      exceptBindOk, h32]
    simp

/-- Witness for C10: a stream with length prefix 1 and its one (NUL)
terminator code unit decodes without panicking. -/
theorem claim_C10_witness :
    generalChatMessageDeserialize (5 :: 7 :: 0 :: (toLE4 1 ++ [0, 0])) ≠
      .error .panicked :=
  claim_C10.1 5 7 0 1 [0, 0] (by decide) (by decide)

end LuPackets
